import Mathlib

/-!
Verification of the IBPP question-bank core.

Shallow embedding of the persistence + query core of the IBPP repository:
the record data model (`src/types.ts`), the filter predicate and tri-state
tag toggling (`src/App.tsx`), the auto-tag rule engine
(the topic-tagger component), and the IndexedDB-backed store operations
(`src/utils/db.ts`).  Each definition mirrors one source function; theorems
below settle the specification's claims about them.
-/

namespace IBPP

/-- Embeds `PaperType` from `src/types.ts`: `Paper 1` or `Paper 2/1-b`. -/
inductive PaperType
  | paper1
  | paper2OneB
deriving DecidableEq

/-- Embeds `ExamMonth` from `src/types.ts`: `May`, `November` or `Unknown`. -/
inductive ExamMonth
  | may
  | november
  | unknownMonth
deriving DecidableEq

/-- Embeds `Difficulty` from `src/types.ts`: `Easy`, `Medium` or `Hard`. -/
inductive Difficulty
  | easy
  | medium
  | hard
deriving DecidableEq

/-- The `year` field of a record: a number or the `Unknown` sentinel in `src/types.ts`. -/
inductive YearValue
  | num (n : Int)
  | unknownYear
deriving DecidableEq

/-- The P1 answer kind: `Selection` or `Image`. -/
inductive AnswerKind
  | selection
  | image
deriving DecidableEq

/-- The P1 single-choice token: `A`, `B`, `C` or `D`. -/
inductive AnswerChoice
  | choiceA
  | choiceB
  | choiceC
  | choiceD
deriving DecidableEq

/-- Embeds `QuestionPart` from `src/types.ts`. -/
structure QuestionPart where
  id : String
  label : String
  questionImage : Option String
  answerImage : Option String
deriving DecidableEq

/-- Embeds `Question` from `src/types.ts`.  Image references are base64 strings in
the source; they stay `String` here. -/
structure Question where
  id : String
  createdAt : Int
  keywords : List String
  topics : List String
  difficulty : Difficulty
  year : YearValue
  month : ExamMonth
  questionNumber : String
  paperType : PaperType
  p1QuestionImage : Option String := none
  p1AnswerType : Option AnswerKind := none
  p1AnswerSelection : Option AnswerChoice := none
  p1AnswerImage : Option String := none
  parts : Option (List QuestionPart) := none
deriving DecidableEq

/-- The year selector of the filter UI: a number, `All` or `Unknown`
(`selectedYear` in `src/App.tsx`). -/
inductive YearFilter
  | all
  | unknownYear
  | num (n : Int)
deriving DecidableEq

/-- Embeds `FilterState` from `src/types.ts` / the filter state hooks of
`src/App.tsx`.  `none` in `paperType` / `difficulty` is the `All`
wildcard. -/
structure FilterState where
  includedKeywords : List String
  excludedKeywords : List String
  includedTopics : List String
  excludedTopics : List String
  year : YearFilter
  paperType : Option PaperType
  difficulty : Option Difficulty
  searchQuery : String
deriving DecidableEq

/-- Contiguous-sublist test on character lists: JavaScript
`hay.includes(needle)` for strings, before lowering. -/
def charsContain (needle : List Char) : List Char → Bool
  | [] => needle.isEmpty
  | c :: t => needle.isPrefixOf (c :: t) || charsContain needle t

/-- JavaScript `hay.toLowerCase().includes(needle.toLowerCase())`, the
case-insensitive substring test used by the search filter in
`src/App.tsx` (lowercasing maps `Char.toLower` over the characters). -/
def strIncludes (hay needle : String) : Bool :=
  charsContain (needle.data.map Char.toLower) (hay.data.map Char.toLower)

/-- Embeds `matchesSearch` inside `filteredQuestions` (`src/App.tsx` line 76). -/
def matchesSearch (f : FilterState) (q : Question) : Bool :=
  f.searchQuery == "" ||
  q.keywords.any (fun k => strIncludes k f.searchQuery) ||
  q.topics.any (fun t => strIncludes t f.searchQuery) ||
  strIncludes q.questionNumber f.searchQuery

/-- Embeds `matchesType` (`src/App.tsx` line 82): the `All` wildcard or strict equality. -/
def matchesType (f : FilterState) (q : Question) : Bool :=
  match f.paperType with
  | none => true
  | some p => q.paperType == p

/-- Embeds `matchesYear` (`src/App.tsx` line 83): the `All` wildcard or strict equality on the
year; strict equality never identifies the `Unknown`
sentinel with a number. -/
def matchesYear (f : FilterState) (q : Question) : Bool :=
  match f.year with
  | .all => true
  | .unknownYear => q.year == .unknownYear
  | .num n => q.year == .num n

/-- Embeds `matchesDifficulty` (`src/App.tsx` line 84). -/
def matchesDifficulty (f : FilterState) (q : Question) : Bool :=
  match f.difficulty with
  | none => true
  | some d => q.difficulty == d

/-- Embeds `matchesIncludedKeywords` (`src/App.tsx` line 88): empty, or every
included keyword is among the record's keywords. -/
def matchesIncludedKeywords (f : FilterState) (q : Question) : Bool :=
  f.includedKeywords.isEmpty ||
  f.includedKeywords.all (fun k => q.keywords.contains k)

/-- Embeds `matchesIncludedTopics` (`src/App.tsx` line 89). -/
def matchesIncludedTopics (f : FilterState) (q : Question) : Bool :=
  f.includedTopics.isEmpty ||
  f.includedTopics.all (fun t => q.topics.contains t)

/-- Embeds `matchesExcludedKeywords` (`src/App.tsx` line 92): empty, or no record
keyword is in the excluded set. -/
def matchesExcludedKeywords (f : FilterState) (q : Question) : Bool :=
  f.excludedKeywords.isEmpty ||
  !(q.keywords.any (fun k => f.excludedKeywords.contains k))

/-- Embeds `matchesExcludedTopics` (`src/App.tsx` line 93). -/
def matchesExcludedTopics (f : FilterState) (q : Question) : Bool :=
  f.excludedTopics.isEmpty ||
  !(q.topics.any (fun t => f.excludedTopics.contains t))

/-- The four tag conjuncts of the filter predicate of `filteredQuestions`
(`src/App.tsx` lines 86–97). -/
def matchesTagConstraints (f : FilterState) (q : Question) : Bool :=
  matchesIncludedKeywords f q && matchesIncludedTopics f q &&
  matchesExcludedKeywords f q && matchesExcludedTopics f q

/-- The full per-record filter predicate of `filteredQuestions`
(`src/App.tsx` lines 74–98). -/
def questionPasses (f : FilterState) (q : Question) : Bool :=
  matchesSearch f q && matchesType f q && matchesYear f q &&
  matchesDifficulty f q && matchesTagConstraints f q

/-- Embeds `filteredQuestions` (`src/App.tsx`): the query engine proper. -/
def filteredQuestions (qs : List Question) (f : FilterState) : List Question :=
  qs.filter (questionPasses f)

/-! ## Tri-state tag toggling (`src/App.tsx` lines 199–233) -/

/-- Embeds `toggleKeywordFilter` (`src/App.tsx` lines 199–211): included → move to
excluded; excluded → remove (neutral); otherwise add to included.
`prev.filter(i => i !== k)` removes every occurrence; `[...prev, k]`
appends. -/
def toggleKeywordFilter (s : FilterState) (k : String) : FilterState :=
  if s.includedKeywords.contains k then
    { s with includedKeywords := s.includedKeywords.filter (fun i => i != k),
             excludedKeywords := s.excludedKeywords ++ [k] }
  else if s.excludedKeywords.contains k then
    { s with excludedKeywords := s.excludedKeywords.filter (fun i => i != k) }
  else
    { s with includedKeywords := s.includedKeywords ++ [k] }

/-- Embeds `toggleTopicFilter` (`src/App.tsx` lines 213–222). -/
def toggleTopicFilter (s : FilterState) (t : String) : FilterState :=
  if s.includedTopics.contains t then
    { s with includedTopics := s.includedTopics.filter (fun i => i != t),
             excludedTopics := s.excludedTopics ++ [t] }
  else if s.excludedTopics.contains t then
    { s with excludedTopics := s.excludedTopics.filter (fun i => i != t) }
  else
    { s with includedTopics := s.includedTopics ++ [t] }

/-- The tri-state classification returned by `getTagState`. -/
inductive TagState
  | isIncluded
  | isExcluded
  | isNeutral
deriving DecidableEq

/-- The tag namespace argument of `getTagState`: `keyword` or `topic`. -/
inductive TagKind
  | keyword
  | topic
deriving DecidableEq

/-- Embeds `getTagState` (`src/App.tsx` lines 224–233). -/
def getTagState (s : FilterState) (item : String) : TagKind → TagState
  | .keyword =>
      if s.includedKeywords.contains item then .isIncluded
      else if s.excludedKeywords.contains item then .isExcluded
      else .isNeutral
  | .topic =>
      if s.includedTopics.contains item then .isIncluded
      else if s.excludedTopics.contains item then .isExcluded
      else .isNeutral

/-- One user toggle action, in either namespace. -/
inductive ToggleOp
  | kw (k : String)
  | tp (t : String)
deriving DecidableEq

/-- Apply one toggle. -/
def applyToggle (s : FilterState) : ToggleOp → FilterState
  | .kw k => toggleKeywordFilter s k
  | .tp t => toggleTopicFilter s t

/-- Apply a sequence of toggles in order. -/
def applyToggles (s : FilterState) (ops : List ToggleOp) : FilterState :=
  ops.foldl applyToggle s

/-- The initial filter state of `src/App.tsx` (lines 23–31): every list
empty, every selector `All`, empty search query. -/
def initialFilter : FilterState :=
  { includedKeywords := [], excludedKeywords := [],
    includedTopics := [], excludedTopics := [],
    year := .all, paperType := none, difficulty := none, searchQuery := "" }

/-! ## Auto-tag rule engine (topic-tagger component) -/

/-- Embeds `affectedQuestions` from the topic-tagger component: empty when the
target topic is the empty string (falsy) or the trigger list is empty;
otherwise the records holding at least one trigger keyword and missing the
target topic. -/
def affectedQuestions (allQuestions : List Question) (targetTopic : String)
    (keywords : List String) : List Question :=
  if targetTopic == "" || keywords.isEmpty then []
  else
    allQuestions.filter (fun q =>
      q.keywords.any (fun k => keywords.contains k) &&
      !(q.topics.contains targetTopic))

/-- Embeds `handleApply` from the topic-tagger component: each affected record
with the target topic appended to its topic list, all other fields kept. -/
def autoTagUpdates (allQuestions : List Question) (targetTopic : String)
    (keywords : List String) : List Question :=
  (affectedQuestions allQuestions targetTopic keywords).map
    (fun q => { q with topics := q.topics ++ [targetTopic] })

/-- Embeds the state merge of `handleAutoTag` (`src/App.tsx` lines 137–140): replace
each record whose id is among the updated ids by its updated version. -/
def applyAutoTag (qs : List Question) (targetTopic : String)
    (keywords : List String) : List Question :=
  let updated := autoTagUpdates qs targetTopic keywords
  let updatedIds := updated.map (fun q => q.id)
  qs.map (fun q =>
    if updatedIds.contains q.id then
      ((updated.find? (fun uq => uq.id == q.id)).getD q)
    else q)

/-! ## Record store (`src/utils/db.ts`)

The store's durable content is modelled as the list of records IndexedDB
holds; the engine itself (open, request, transaction) is modelled
operationally, with a fault parameter standing for an engine failure at a
given point. -/

/-- The store's error taxonomy: one label per distinct rejection path of
`src/utils/db.ts` (the `request.onerror` of `initDB`, a read request's
`onerror`, a put request's `onerror`, a bulk transaction's
`onerror`/`onabort`). -/
inductive DBError
  | initializationError
  | readError
  | writeError
  | transactionError
deriving DecidableEq

/-- The durable content of the `questions` object store. -/
abbrev Store := List Question

/-- IndexedDB `store.put(q)` with key path `id` (used by
`addQuestionToDB`, `src/utils/db.ts` line 46): overwrite the record(s)
carrying the same id in place, or add the record when the id is absent. -/
def putRecord (s : Store) (q : Question) : Store :=
  if s.any (fun r => r.id == q.id) then
    s.map (fun r => if r.id == q.id then q else r)
  else s ++ [q]

/-- All puts of a bulk call, in order. -/
def applyPuts (s : Store) (qs : List Question) : Store :=
  qs.foldl putRecord s

/-- An in-flight IndexedDB transaction: the durable store plus the
transaction-local working state the puts act on. -/
structure Txn where
  durable : Store
  working : Store

/-- One `store.put(q)` inside an open transaction: only the working state
changes; nothing is durable before the transaction completes. -/
def txnPut (t : Txn) (q : Question) : Txn :=
  { t with working := putRecord t.working q }

/-- Run the puts of `bulkUpdateQuestions` in order.  `failAt = some k`
simulates the engine failing on the k-th put, which aborts the
transaction (`onabort`); the Bool result records whether it aborted. -/
def runPuts : Txn → List Question → Option Nat → Txn × Bool
  | t, [], _ => (t, false)
  | t, q :: rest, none => runPuts (txnPut t q) rest none
  | t, _ :: _, some 0 => (t, true)
  | t, q :: rest, some (k + 1) => runPuts (txnPut t q) rest (some k)

/-- Embeds `bulkUpdateQuestions` (`src/utils/db.ts` lines 53–67): all puts issued
inside one transaction; `oncomplete` resolves with the working state made
durable, `onerror`/`onabort` rejects and leaves the durable state as it
was.  Returns the call's outcome and what `getAll()` sees afterwards. -/
def bulkUpdateQuestions (s : Store) (qs : List Question)
    (failAt : Option Nat) : Except DBError Unit × Store :=
  let r := runPuts ⟨s, s⟩ qs failAt
  if r.2 then (.error .transactionError, r.1.durable)
  else (.ok (), r.1.working)

/-- Whether the engine fails while opening the database, and whether it
fails during the operation's own request. -/
structure EngineFault where
  openFails : Bool
  opFails : Bool
deriving DecidableEq

/-- Embeds `initDB` (`src/utils/db.ts` lines 8–27): resolves once the database is
open; `request.onerror` rejects — the initialization failure path. -/
def initDB (fault : EngineFault) : Except DBError Unit :=
  if fault.openFails then .error .initializationError else .ok ()

/-- Embeds `getAllQuestions` (`src/utils/db.ts` lines 29–39): await `initDB`,
then `store.getAll()`; the request's `onerror` rejects — the read failure
path. -/
def getAllQuestions (s : Store) (fault : EngineFault) :
    Except DBError (List Question) :=
  match initDB fault with
  | .error e => .error e
  | .ok _ => if fault.opFails then .error .readError else .ok s

/-- Embeds `addQuestionToDB` (`src/utils/db.ts` lines 41–51): await `initDB`,
then `store.put(question)`; the request's `onerror` rejects — the write
failure path. -/
def addQuestionToDB (s : Store) (q : Question) (fault : EngineFault) :
    Except DBError Unit × Store :=
  match initDB fault with
  | .error e => (.error e, s)
  | .ok _ =>
      if fault.opFails then (.error .writeError, s)
      else (.ok (), putRecord s q)

/-- Embeds `bulkUpdateQuestions` including the `initDB` step, with the engine's
failure points made explicit (open failure, or abort on the k-th put). -/
def bulkUpdateQuestionsFull (s : Store) (qs : List Question)
    (fault : EngineFault) (failAt : Option Nat) :
    Except DBError Unit × Store :=
  match initDB fault with
  | .error e => (.error e, s)
  | .ok _ => bulkUpdateQuestions s qs failAt

/-! ## Helper definitions for the proofs -/

/-- The common core of both toggle handlers, acting on one namespace's
(included, excluded) pair. -/
def togglePair (inc exc : List String) (k : String) : List String × List String :=
  if inc.contains k then (inc.filter (fun i => i != k), exc ++ [k])
  else if exc.contains k then (inc, exc.filter (fun i => i != k))
  else (inc ++ [k], exc)

/-- Per-namespace disjointness of the included and excluded sets. -/
def DisjointTags (s : FilterState) : Prop :=
  (∀ t, ¬(t ∈ s.includedKeywords ∧ t ∈ s.excludedKeywords)) ∧
  (∀ t, ¬(t ∈ s.includedTopics ∧ t ∈ s.excludedTopics))

/-- The classification of `getTagState` computed on one namespace's
(included, excluded) pair. -/
def pairState (inc exc : List String) (k : String) : TagState :=
  if inc.contains k then .isIncluded
  else if exc.contains k then .isExcluded
  else .isNeutral

/-- A concrete record with the given id, keywords and topics; the other
fields take fixed values. -/
def mkQ (i : String) (kws tps : List String) : Question :=
  { id := i, createdAt := 0, keywords := kws, topics := tps,
    difficulty := .easy, year := .num 2020, month := .may,
    questionNumber := "1", paperType := .paper1 }

/-- A concrete record with a chosen year. -/
def mkQY (i : String) (y : YearValue) : Question :=
  { mkQ i [] [] with year := y }

/-- The spec's worked filter: included keywords `{A, B}`, excluded
keywords `{C}`. -/
def demoFilterC1 : FilterState :=
  { initialFilter with includedKeywords := ["A", "B"],
                       excludedKeywords := ["C"] }

/-- Two concrete records for the auto-tag scenario: one with keyword
`waves` and no topics, one with keyword `forces`. -/
def demoQs : List Question :=
  [mkQ "q1" ["waves"] [], mkQ "q2" ["forces"] []]

/-! ## Theorems -/

theorem contains_iff_mem {l : List String} {a : String} :
    l.contains a = true ↔ a ∈ l := List.elem_iff

theorem matchesIncludedKeywords_iff (f : FilterState) (q : Question) :
    matchesIncludedKeywords f q = true ↔
      (f.includedKeywords = [] ∨ ∀ k ∈ f.includedKeywords, k ∈ q.keywords) := by
  simp [matchesIncludedKeywords, List.isEmpty_iff, List.all_eq_true,
    contains_iff_mem]

theorem matchesIncludedTopics_iff (f : FilterState) (q : Question) :
    matchesIncludedTopics f q = true ↔
      (f.includedTopics = [] ∨ ∀ t ∈ f.includedTopics, t ∈ q.topics) := by
  simp [matchesIncludedTopics, List.isEmpty_iff, List.all_eq_true,
    contains_iff_mem]

theorem matchesExcludedKeywords_iff (f : FilterState) (q : Question) :
    matchesExcludedKeywords f q = true ↔
      (f.excludedKeywords = [] ∨ ∀ k ∈ f.excludedKeywords, k ∉ q.keywords) := by
  simp only [matchesExcludedKeywords, Bool.or_eq_true, List.isEmpty_iff,
    Bool.not_eq_true', List.any_eq_false, contains_iff_mem,
    Bool.not_eq_true]
  constructor
  · rintro (h | h)
    · exact Or.inl h
    · exact Or.inr fun k hk hmem => (h k hmem) hk
  · rintro (h | h)
    · exact Or.inl h
    · exact Or.inr fun k hmem hk => (h k hk) hmem

theorem matchesExcludedTopics_iff (f : FilterState) (q : Question) :
    matchesExcludedTopics f q = true ↔
      (f.excludedTopics = [] ∨ ∀ t ∈ f.excludedTopics, t ∉ q.topics) := by
  simp only [matchesExcludedTopics, Bool.or_eq_true, List.isEmpty_iff,
    Bool.not_eq_true', List.any_eq_false, contains_iff_mem,
    Bool.not_eq_true]
  constructor
  · rintro (h | h)
    · exact Or.inl h
    · exact Or.inr fun t ht hmem => (h t hmem) ht
  · rintro (h | h)
    · exact Or.inl h
    · exact Or.inr fun t hmem ht => (h t ht) hmem

/-- C1: a record passes the tag constraints of a filter iff the
included-keyword set is empty or contained in the record's keywords, the
excluded-keyword set is empty or disjoint from them, and the same two
conditions hold for topics; with included keywords `{A, B}` and excluded
keywords `{C}`, keywords `{A, B, D}` pass, `{A}` fails, and `{A, B, C}`
fails. -/
theorem tag_constraints_characterization :
    (∀ (f : FilterState) (q : Question),
      matchesTagConstraints f q = true ↔
        ((f.includedKeywords = [] ∨ ∀ k ∈ f.includedKeywords, k ∈ q.keywords) ∧
         (f.excludedKeywords = [] ∨ ∀ k ∈ f.excludedKeywords, k ∉ q.keywords) ∧
         (f.includedTopics = [] ∨ ∀ t ∈ f.includedTopics, t ∈ q.topics) ∧
         (f.excludedTopics = [] ∨ ∀ t ∈ f.excludedTopics, t ∉ q.topics))) ∧
    matchesTagConstraints demoFilterC1 (mkQ "r1" ["A", "B", "D"] []) = true ∧
    matchesTagConstraints demoFilterC1 (mkQ "r2" ["A"] []) = false ∧
    matchesTagConstraints demoFilterC1 (mkQ "r3" ["A", "B", "C"] []) = false := by
  refine ⟨fun f q => ?_, by decide, by decide, by decide⟩
  simp only [matchesTagConstraints, Bool.and_eq_true,
    matchesIncludedKeywords_iff, matchesIncludedTopics_iff,
    matchesExcludedKeywords_iff, matchesExcludedTopics_iff]
  tauto

theorem matchesSearch_iff (f : FilterState) (q : Question) :
    matchesSearch f q = true ↔
      (f.searchQuery = "" ∨
       (∃ k ∈ q.keywords, strIncludes k f.searchQuery = true) ∨
       (∃ t ∈ q.topics, strIncludes t f.searchQuery = true) ∨
       strIncludes q.questionNumber f.searchQuery = true) := by
  simp only [matchesSearch, Bool.or_eq_true, beq_iff_eq, List.any_eq_true]
  rw [or_assoc, or_assoc]

theorem matchesType_iff (f : FilterState) (q : Question) :
    matchesType f q = true ↔
      (f.paperType = none ∨ f.paperType = some q.paperType) := by
  cases h : f.paperType with
  | none => simp [matchesType, h]
  | some p =>
      simp only [matchesType, h, beq_iff_eq, Option.some.injEq]
      constructor
      · intro he; exact Or.inr (by rw [he])
      · rintro (he | he)
        · exact absurd he (by simp)
        · exact he.symm

theorem matchesYear_iff (f : FilterState) (q : Question) :
    matchesYear f q = true ↔
      (f.year = .all ∨
       (∃ n : Int, f.year = .num n ∧ q.year = .num n) ∨
       (f.year = .unknownYear ∧ q.year = .unknownYear)) := by
  cases hf : f.year with
  | all => simp [matchesYear, hf]
  | unknownYear => cases hq : q.year <;> simp [matchesYear, hf, hq]
  | num n => cases hq : q.year with
    | num m =>
        simp only [matchesYear, hf, hq, beq_iff_eq, YearValue.num.injEq,
          YearFilter.num.injEq]
        constructor
        · intro he; exact Or.inr (Or.inl ⟨n, rfl, he⟩)
        · rintro (he | ⟨j, hj1, hj2⟩ | ⟨he, _⟩)
          · exact absurd he (by simp)
          · cases hj1; exact hj2
          · exact absurd he (by simp)
    | unknownYear => simp [matchesYear, hf, hq]

theorem matchesDifficulty_iff (f : FilterState) (q : Question) :
    matchesDifficulty f q = true ↔
      (f.difficulty = none ∨ f.difficulty = some q.difficulty) := by
  cases h : f.difficulty with
  | none => simp [matchesDifficulty, h]
  | some d =>
      simp only [matchesDifficulty, h, beq_iff_eq, Option.some.injEq]
      constructor
      · intro he; exact Or.inr (by rw [he])
      · rintro (he | he)
        · exact absurd he (by simp)
        · exact he.symm

/-- C2: a record passes the free-text and categorical constraints iff the
query is empty or a case-insensitive substring of some keyword, some topic
or the question-number label, and each of paperType, year and difficulty
is either the `All` wildcard or exactly the record's value; the `Unknown`
year sentinel never matches any numeric year filter and a numeric year
never matches the `Unknown` filter. -/
theorem text_and_categorical_characterization :
    (∀ (f : FilterState) (q : Question),
      (matchesSearch f q && matchesType f q && matchesYear f q &&
        matchesDifficulty f q) = true ↔
        ((f.searchQuery = "" ∨
          (∃ k ∈ q.keywords, strIncludes k f.searchQuery = true) ∨
          (∃ t ∈ q.topics, strIncludes t f.searchQuery = true) ∨
          strIncludes q.questionNumber f.searchQuery = true) ∧
         (f.paperType = none ∨ f.paperType = some q.paperType) ∧
         (f.year = .all ∨
          (∃ n : Int, f.year = .num n ∧ q.year = .num n) ∨
          (f.year = .unknownYear ∧ q.year = .unknownYear)) ∧
         (f.difficulty = none ∨ f.difficulty = some q.difficulty))) ∧
    (∀ n : Int,
      matchesYear { initialFilter with year := .num n }
        (mkQY "u" .unknownYear) = false) ∧
    matchesYear { initialFilter with year := .unknownYear }
      (mkQY "y" (.num 2021)) = false := by
  refine ⟨fun f q => ?_, fun n => by simp [matchesYear, mkQY, mkQ],
    by simp [matchesYear, mkQY, mkQ]⟩
  simp only [Bool.and_eq_true, matchesSearch_iff, matchesType_iff,
    matchesYear_iff, matchesDifficulty_iff]
  rw [and_assoc, and_assoc]

theorem contains_eq_true_of_mem {l : List String} {a : String} (h : a ∈ l) :
    l.contains a = true := contains_iff_mem.mpr h

theorem contains_eq_false_of_not_mem {l : List String} {a : String}
    (h : a ∉ l) : l.contains a = false := by
  rw [Bool.eq_false_iff]
  exact fun hc => h (contains_iff_mem.mp hc)

theorem filter_ne_eq_self {l : List String} {k : String} (h : k ∉ l) :
    l.filter (fun i => i != k) = l :=
  List.filter_eq_self.mpr fun _ ha => bne_iff_ne.mpr fun he => h (he ▸ ha)

theorem filter_ne_append_self {l : List String} {k : String} (h : k ∉ l) :
    (l ++ [k]).filter (fun i => i != k) = l := by
  rw [List.filter_append, filter_ne_eq_self h]
  simp

theorem toggleKeywordFilter_eq (s : FilterState) (k : String) :
    toggleKeywordFilter s k =
      { s with
        includedKeywords := (togglePair s.includedKeywords s.excludedKeywords k).1,
        excludedKeywords := (togglePair s.includedKeywords s.excludedKeywords k).2 } := by
  unfold toggleKeywordFilter togglePair
  split_ifs <;> rfl

theorem toggleTopicFilter_eq (s : FilterState) (t : String) :
    toggleTopicFilter s t =
      { s with
        includedTopics := (togglePair s.includedTopics s.excludedTopics t).1,
        excludedTopics := (togglePair s.includedTopics s.excludedTopics t).2 } := by
  unfold toggleTopicFilter togglePair
  split_ifs <;> rfl

theorem getTagState_keyword (s : FilterState) (t : String) :
    getTagState s t .keyword =
      pairState s.includedKeywords s.excludedKeywords t := rfl

theorem getTagState_topic (s : FilterState) (t : String) :
    getTagState s t .topic =
      pairState s.includedTopics s.excludedTopics t := rfl

theorem pairState_eq_isIncluded {inc exc : List String} {k : String} :
    pairState inc exc k = .isIncluded ↔ k ∈ inc := by
  by_cases h1 : k ∈ inc <;> by_cases h2 : k ∈ exc <;>
    simp [pairState, h1, h2, contains_eq_true_of_mem,
      contains_eq_false_of_not_mem]

theorem pairState_eq_isExcluded {inc exc : List String} {k : String} :
    pairState inc exc k = .isExcluded ↔ (k ∉ inc ∧ k ∈ exc) := by
  by_cases h1 : k ∈ inc <;> by_cases h2 : k ∈ exc <;>
    simp [pairState, h1, h2, contains_eq_true_of_mem,
      contains_eq_false_of_not_mem]

theorem pairState_eq_isNeutral {inc exc : List String} {k : String} :
    pairState inc exc k = .isNeutral ↔ (k ∉ inc ∧ k ∉ exc) := by
  by_cases h1 : k ∈ inc <;> by_cases h2 : k ∈ exc <;>
    simp [pairState, h1, h2, contains_eq_true_of_mem,
      contains_eq_false_of_not_mem]

theorem togglePair_included_eq {inc exc : List String} {k : String}
    (h : k ∈ inc) :
    togglePair inc exc k = (inc.filter (fun i => i != k), exc ++ [k]) := by
  unfold togglePair
  rw [if_pos]
  exact contains_iff_mem.mpr h

theorem togglePair_excluded_eq {inc exc : List String} {k : String}
    (hni : k ∉ inc) (h : k ∈ exc) :
    togglePair inc exc k = (inc, exc.filter (fun i => i != k)) := by
  unfold togglePair
  rw [if_neg, if_pos]
  · exact contains_iff_mem.mpr h
  · exact fun hc => hni (contains_iff_mem.mp hc)

theorem togglePair_neutral_eq {inc exc : List String} {k : String}
    (hni : k ∉ inc) (hne : k ∉ exc) :
    togglePair inc exc k = (inc ++ [k], exc) := by
  unfold togglePair
  rw [if_neg, if_neg]
  · exact fun hc => hne (contains_iff_mem.mp hc)
  · exact fun hc => hni (contains_iff_mem.mp hc)

theorem togglePair_disjoint {inc exc : List String} (k : String)
    (h : ∀ u, ¬(u ∈ inc ∧ u ∈ exc)) :
    ∀ u, ¬(u ∈ (togglePair inc exc k).1 ∧ u ∈ (togglePair inc exc k).2) := by
  intro u
  by_cases h1 : k ∈ inc
  · rw [togglePair_included_eq h1]
    simp only [List.mem_filter, bne_iff_ne, List.mem_append,
      List.mem_singleton]
    rintro ⟨⟨hu, hneq⟩, he | rfl⟩
    · exact h u ⟨hu, he⟩
    · exact hneq rfl
  · by_cases h2 : k ∈ exc
    · rw [togglePair_excluded_eq h1 h2]
      simp only [List.mem_filter, bne_iff_ne]
      rintro ⟨hu, he, _⟩
      exact h u ⟨hu, he⟩
    · rw [togglePair_neutral_eq h1 h2]
      simp only [List.mem_append, List.mem_singleton]
      rintro ⟨hu | rfl, he⟩
      · exact h u ⟨hu, he⟩
      · exact h2 he

theorem applyToggle_disjoint {s : FilterState} (h : DisjointTags s)
    (op : ToggleOp) : DisjointTags (applyToggle s op) := by
  cases op with
  | kw k =>
      simp only [applyToggle]
      rw [toggleKeywordFilter_eq]
      exact ⟨togglePair_disjoint k h.1, h.2⟩
  | tp t =>
      simp only [applyToggle]
      rw [toggleTopicFilter_eq]
      exact ⟨h.1, togglePair_disjoint t h.2⟩

theorem applyToggles_disjoint (ops : List ToggleOp) :
    ∀ s : FilterState, DisjointTags s → DisjointTags (applyToggles s ops) := by
  induction ops with
  | nil => intro s h; exact h
  | cons op rest ih =>
      intro s h
      simp only [applyToggles, List.foldl_cons]
      exact ih _ (applyToggle_disjoint h op)

/-- C5: starting from the empty filter state, after any sequence of
keyword/topic toggles, no tag value is simultaneously in the included and
excluded sets of its namespace. -/
theorem toggle_sequences_disjoint :
    ∀ (ops : List ToggleOp) (t : String),
      ¬(t ∈ (applyToggles initialFilter ops).includedKeywords ∧
        t ∈ (applyToggles initialFilter ops).excludedKeywords) ∧
      ¬(t ∈ (applyToggles initialFilter ops).includedTopics ∧
        t ∈ (applyToggles initialFilter ops).excludedTopics) := by
  intro ops t
  have h0 : DisjointTags initialFilter := by
    constructor <;> intro u <;> simp [initialFilter]
  have h := applyToggles_disjoint ops initialFilter h0
  exact ⟨h.1 t, h.2 t⟩

theorem toggleKeywordFilter_inc (s : FilterState) (k : String) :
    (toggleKeywordFilter s k).includedKeywords =
      (togglePair s.includedKeywords s.excludedKeywords k).1 := by
  rw [toggleKeywordFilter_eq]

theorem toggleKeywordFilter_exc (s : FilterState) (k : String) :
    (toggleKeywordFilter s k).excludedKeywords =
      (togglePair s.includedKeywords s.excludedKeywords k).2 := by
  rw [toggleKeywordFilter_eq]

theorem toggleKeywordFilter_incTopics (s : FilterState) (k : String) :
    (toggleKeywordFilter s k).includedTopics = s.includedTopics := by
  rw [toggleKeywordFilter_eq]

theorem toggleKeywordFilter_excTopics (s : FilterState) (k : String) :
    (toggleKeywordFilter s k).excludedTopics = s.excludedTopics := by
  rw [toggleKeywordFilter_eq]

theorem toggleTopicFilter_incT (s : FilterState) (t : String) :
    (toggleTopicFilter s t).includedTopics =
      (togglePair s.includedTopics s.excludedTopics t).1 := by
  rw [toggleTopicFilter_eq]

theorem toggleTopicFilter_excT (s : FilterState) (t : String) :
    (toggleTopicFilter s t).excludedTopics =
      (togglePair s.includedTopics s.excludedTopics t).2 := by
  rw [toggleTopicFilter_eq]

theorem toggleTopicFilter_incKeywords (s : FilterState) (t : String) :
    (toggleTopicFilter s t).includedKeywords = s.includedKeywords := by
  rw [toggleTopicFilter_eq]

theorem toggleTopicFilter_excKeywords (s : FilterState) (t : String) :
    (toggleTopicFilter s t).excludedKeywords = s.excludedKeywords := by
  rw [toggleTopicFilter_eq]

theorem pairState_toggle_of_included {inc exc : List String} {k : String}
    (h : k ∈ inc) :
    k ∉ (togglePair inc exc k).1 ∧ k ∈ (togglePair inc exc k).2 ∧
    pairState (togglePair inc exc k).1 (togglePair inc exc k).2 k
      = .isExcluded := by
  rw [togglePair_included_eq h]
  refine ⟨by simp [List.mem_filter], by simp, ?_⟩
  exact pairState_eq_isExcluded.mpr ⟨by simp [List.mem_filter], by simp⟩

theorem pairState_toggle_of_excluded {inc exc : List String} {k : String}
    (hni : k ∉ inc) (h : k ∈ exc) :
    k ∉ (togglePair inc exc k).2 ∧ (togglePair inc exc k).1 = inc ∧
    pairState (togglePair inc exc k).1 (togglePair inc exc k).2 k
      = .isNeutral := by
  rw [togglePair_excluded_eq hni h]
  exact ⟨by simp [List.mem_filter], rfl,
    pairState_eq_isNeutral.mpr ⟨hni, by simp [List.mem_filter]⟩⟩

theorem pairState_toggle_of_neutral {inc exc : List String} {k : String}
    (hni : k ∉ inc) (hne : k ∉ exc) :
    k ∈ (togglePair inc exc k).1 ∧
    pairState (togglePair inc exc k).1 (togglePair inc exc k).2 k
      = .isIncluded := by
  rw [togglePair_neutral_eq hni hne]
  exact ⟨by simp, pairState_eq_isIncluded.mpr (by simp)⟩

theorem togglePair_cycle {inc exc : List String} {k : String}
    (hni : k ∉ inc) (hne : k ∉ exc) :
    togglePair
      (togglePair (togglePair inc exc k).1 (togglePair inc exc k).2 k).1
      (togglePair (togglePair inc exc k).1 (togglePair inc exc k).2 k).2 k
      = (inc, exc) := by
  have h1 : togglePair inc exc k = (inc ++ [k], exc) :=
    togglePair_neutral_eq hni hne
  have h2 : togglePair (inc ++ [k]) exc k = (inc, exc ++ [k]) := by
    rw [togglePair_included_eq (by simp), filter_ne_append_self hni]
  have h3 : togglePair inc (exc ++ [k]) k = (inc, exc) := by
    rw [togglePair_excluded_eq hni (by simp), filter_ne_append_self hne]
  rw [h1]
  dsimp only
  rw [h2]
  dsimp only
  rw [h3]

/-- C6: on a disjoint filter state, one toggle follows the tri-state
transition rule — included goes to excluded (removed from the included
set, appended to the excluded set), excluded goes to neutral (removed
from the excluded set), neutral goes to included (appended to the
included set) — and three toggles on a neutral tag return it to neutral,
in both the keyword and the topic namespace. -/
theorem toggle_transition_rule :
    ∀ (s : FilterState) (t : String),
      (∀ u, ¬(u ∈ s.includedKeywords ∧ u ∈ s.excludedKeywords)) →
      (∀ u, ¬(u ∈ s.includedTopics ∧ u ∈ s.excludedTopics)) →
      ((getTagState s t .keyword = .isIncluded →
          t ∉ (toggleKeywordFilter s t).includedKeywords ∧
          t ∈ (toggleKeywordFilter s t).excludedKeywords ∧
          getTagState (toggleKeywordFilter s t) t .keyword = .isExcluded) ∧
       (getTagState s t .keyword = .isExcluded →
          t ∉ (toggleKeywordFilter s t).excludedKeywords ∧
          (toggleKeywordFilter s t).includedKeywords = s.includedKeywords ∧
          getTagState (toggleKeywordFilter s t) t .keyword = .isNeutral) ∧
       (getTagState s t .keyword = .isNeutral →
          t ∈ (toggleKeywordFilter s t).includedKeywords ∧
          getTagState (toggleKeywordFilter s t) t .keyword = .isIncluded) ∧
       (getTagState s t .keyword = .isNeutral →
          getTagState (toggleKeywordFilter (toggleKeywordFilter
            (toggleKeywordFilter s t) t) t) t .keyword = .isNeutral)) ∧
      ((getTagState s t .topic = .isIncluded →
          t ∉ (toggleTopicFilter s t).includedTopics ∧
          t ∈ (toggleTopicFilter s t).excludedTopics ∧
          getTagState (toggleTopicFilter s t) t .topic = .isExcluded) ∧
       (getTagState s t .topic = .isExcluded →
          t ∉ (toggleTopicFilter s t).excludedTopics ∧
          (toggleTopicFilter s t).includedTopics = s.includedTopics ∧
          getTagState (toggleTopicFilter s t) t .topic = .isNeutral) ∧
       (getTagState s t .topic = .isNeutral →
          t ∈ (toggleTopicFilter s t).includedTopics ∧
          getTagState (toggleTopicFilter s t) t .topic = .isIncluded) ∧
       (getTagState s t .topic = .isNeutral →
          getTagState (toggleTopicFilter (toggleTopicFilter
            (toggleTopicFilter s t) t) t) t .topic = .isNeutral)) := by
  intro s t _ _
  constructor
  · refine ⟨fun hcl => ?_, fun hcl => ?_, fun hcl => ?_, fun hcl => ?_⟩
    · have hm : t ∈ s.includedKeywords := pairState_eq_isIncluded.mp hcl
      have h := @pairState_toggle_of_included s.includedKeywords s.excludedKeywords t hm
      rw [toggleKeywordFilter_inc, toggleKeywordFilter_exc,
        getTagState_keyword, toggleKeywordFilter_inc, toggleKeywordFilter_exc]
      exact h
    · have hm := pairState_eq_isExcluded.mp hcl
      have h := pairState_toggle_of_excluded hm.1 hm.2
      rw [toggleKeywordFilter_inc, toggleKeywordFilter_exc,
        getTagState_keyword, toggleKeywordFilter_inc, toggleKeywordFilter_exc]
      exact ⟨h.1, h.2.1, h.2.2⟩
    · have hm := pairState_eq_isNeutral.mp hcl
      have h := pairState_toggle_of_neutral hm.1 hm.2
      rw [toggleKeywordFilter_inc, getTagState_keyword,
        toggleKeywordFilter_inc, toggleKeywordFilter_exc]
      exact h
    · have hm := pairState_eq_isNeutral.mp hcl
      have hcyc := @togglePair_cycle s.includedKeywords s.excludedKeywords t hm.1 hm.2
      simp only [getTagState_keyword, toggleKeywordFilter_inc,
        toggleKeywordFilter_exc]
      rw [hcyc]
      exact hcl
  · refine ⟨fun hcl => ?_, fun hcl => ?_, fun hcl => ?_, fun hcl => ?_⟩
    · have hm : t ∈ s.includedTopics := pairState_eq_isIncluded.mp hcl
      have h := @pairState_toggle_of_included s.includedTopics s.excludedTopics t hm
      rw [toggleTopicFilter_incT, toggleTopicFilter_excT,
        getTagState_topic, toggleTopicFilter_incT, toggleTopicFilter_excT]
      exact h
    · have hm := pairState_eq_isExcluded.mp hcl
      have h := pairState_toggle_of_excluded hm.1 hm.2
      rw [toggleTopicFilter_incT, toggleTopicFilter_excT,
        getTagState_topic, toggleTopicFilter_incT, toggleTopicFilter_excT]
      exact ⟨h.1, h.2.1, h.2.2⟩
    · have hm := pairState_eq_isNeutral.mp hcl
      have h := pairState_toggle_of_neutral hm.1 hm.2
      rw [toggleTopicFilter_incT, getTagState_topic,
        toggleTopicFilter_incT, toggleTopicFilter_excT]
      exact h
    · have hm := pairState_eq_isNeutral.mp hcl
      have hcyc := @togglePair_cycle s.includedTopics s.excludedTopics t hm.1 hm.2
      simp only [getTagState_topic, toggleTopicFilter_incT,
        toggleTopicFilter_excT]
      rw [hcyc]
      exact hcl

/-- Witness for the transition rule at a concrete state: toggling the
neutral tag `x` on the empty filter state includes it, and three toggles
return it to neutral. -/
theorem toggle_transition_rule_witness :
    (∀ u : String, ¬(u ∈ initialFilter.includedKeywords ∧
        u ∈ initialFilter.excludedKeywords)) ∧
    ("x" ∈ (toggleKeywordFilter initialFilter "x").includedKeywords ∧
     getTagState (toggleKeywordFilter initialFilter "x") "x" .keyword
       = .isIncluded) ∧
    getTagState (toggleKeywordFilter (toggleKeywordFilter
      (toggleKeywordFilter initialFilter "x") "x") "x") "x" .keyword
      = .isNeutral := by
  have h := toggle_transition_rule initialFilter "x"
    (by simp [initialFilter]) (by simp [initialFilter])
  have hn : getTagState initialFilter "x" .keyword = .isNeutral := rfl
  exact ⟨by simp [initialFilter], h.1.2.2.1 hn, h.1.2.2.2 hn⟩

theorem togglePair_frame {inc exc : List String} {k u : String}
    (hne : u ≠ k) :
    (u ∈ (togglePair inc exc k).1 ↔ u ∈ inc) ∧
    (u ∈ (togglePair inc exc k).2 ↔ u ∈ exc) := by
  by_cases h1 : k ∈ inc
  · rw [togglePair_included_eq h1]
    simp [List.mem_filter, bne_iff_ne, hne]
  · by_cases h2 : k ∈ exc
    · rw [togglePair_excluded_eq h1 h2]
      simp [List.mem_filter, bne_iff_ne, hne]
    · rw [togglePair_neutral_eq h1 h2]
      simp [hne]

/-- C10: toggling one tag value only reclassifies that value — every
other value keeps its membership in both sets of the namespace — and a
keyword toggle leaves the topic sets untouched (and a topic toggle the
keyword sets). -/
theorem toggle_frame :
    ∀ (s : FilterState) (t u : String), u ≠ t →
      ((u ∈ (toggleKeywordFilter s t).includedKeywords ↔
          u ∈ s.includedKeywords) ∧
       (u ∈ (toggleKeywordFilter s t).excludedKeywords ↔
          u ∈ s.excludedKeywords) ∧
       (toggleKeywordFilter s t).includedTopics = s.includedTopics ∧
       (toggleKeywordFilter s t).excludedTopics = s.excludedTopics) ∧
      ((u ∈ (toggleTopicFilter s t).includedTopics ↔
          u ∈ s.includedTopics) ∧
       (u ∈ (toggleTopicFilter s t).excludedTopics ↔
          u ∈ s.excludedTopics) ∧
       (toggleTopicFilter s t).includedKeywords = s.includedKeywords ∧
       (toggleTopicFilter s t).excludedKeywords = s.excludedKeywords) := by
  intro s t u hne
  constructor
  · rw [toggleKeywordFilter_inc, toggleKeywordFilter_exc,
      toggleKeywordFilter_incTopics, toggleKeywordFilter_excTopics]
    exact ⟨(togglePair_frame hne).1, (togglePair_frame hne).2, rfl, rfl⟩
  · rw [toggleTopicFilter_incT, toggleTopicFilter_excT,
      toggleTopicFilter_incKeywords, toggleTopicFilter_excKeywords]
    exact ⟨(togglePair_frame hne).1, (togglePair_frame hne).2, rfl, rfl⟩

/-- Witness for the frame property at a concrete state: toggling `x` on
the empty filter state does not affect the classification of `y`. -/
theorem toggle_frame_witness :
    ("y" ∈ (toggleKeywordFilter initialFilter "x").includedKeywords ↔
      "y" ∈ initialFilter.includedKeywords) ∧
    (toggleKeywordFilter initialFilter "x").includedTopics
      = initialFilter.includedTopics := by
  have h := toggle_frame initialFilter "x" "y" (by decide)
  exact ⟨h.1.1, h.1.2.2.1⟩

theorem contains_eq_false_iff {l : List String} {a : String} :
    l.contains a = false ↔ a ∉ l := by
  constructor
  · exact fun h hm => by rw [contains_eq_true_of_mem hm] at h; cases h
  · exact contains_eq_false_of_not_mem

/-- C3: with a non-empty target topic and a non-empty trigger set, the
qualifying records are exactly those of the input holding at least one
trigger keyword and missing the target topic, and the rule's output is
those records with the target topic appended to the end of the topic list
and every other field unchanged; an empty target or trigger set yields an
empty qualifying set and an empty output (a no-op, not an error). -/
theorem autoTag_rule_characterization :
    ∀ (qs : List Question) (t : String) (ks : List String),
      (t ≠ "" → ks ≠ [] →
        ((∀ q, q ∈ affectedQuestions qs t ks ↔
            q ∈ qs ∧ (∃ k ∈ ks, k ∈ q.keywords) ∧ t ∉ q.topics) ∧
         List.Forall₂ (fun u q =>
            u.topics = q.topics ++ [t] ∧ u.id = q.id ∧
            u.createdAt = q.createdAt ∧ u.keywords = q.keywords ∧
            u.difficulty = q.difficulty ∧ u.year = q.year ∧
            u.month = q.month ∧ u.questionNumber = q.questionNumber ∧
            u.paperType = q.paperType ∧
            u.p1QuestionImage = q.p1QuestionImage ∧
            u.p1AnswerType = q.p1AnswerType ∧
            u.p1AnswerSelection = q.p1AnswerSelection ∧
            u.p1AnswerImage = q.p1AnswerImage ∧ u.parts = q.parts)
          (autoTagUpdates qs t ks) (affectedQuestions qs t ks))) ∧
      ((t = "" ∨ ks = []) →
        affectedQuestions qs t ks = [] ∧ autoTagUpdates qs t ks = []) := by
  intro qs t ks
  constructor
  · intro ht hk
    have hcond : (t == "" || ks.isEmpty) = false := by
      simp [ht, List.isEmpty_iff, hk]
    constructor
    · intro q
      simp only [affectedQuestions, hcond, Bool.false_eq_true, if_false,
        List.mem_filter, Bool.and_eq_true, Bool.not_eq_true',
        List.any_eq_true, contains_iff_mem, contains_eq_false_iff]
      constructor
      · rintro ⟨hq, ⟨k, hk1, hk2⟩, htp⟩
        exact ⟨hq, ⟨k, hk2, hk1⟩, htp⟩
      · rintro ⟨hq, ⟨k, hk1, hk2⟩, htp⟩
        exact ⟨hq, ⟨k, hk2, hk1⟩, htp⟩
    · simp only [autoTagUpdates, List.forall₂_map_left_iff,
        List.forall₂_same]
      intro q _
      simp
  · intro h
    have hcond : (t == "" || ks.isEmpty) = true := by
      rcases h with h | h <;> simp [h]
    constructor
    · simp [affectedQuestions, hcond]
    · simp [autoTagUpdates, affectedQuestions, hcond]

/-- Witness for the auto-tag characterization: target `B.4`, trigger
`waves`, on the two-record demo set; and the empty-target edge case. -/
theorem autoTag_rule_characterization_witness :
    (∀ q, q ∈ affectedQuestions demoQs "B.4" ["waves"] ↔
        q ∈ demoQs ∧ (∃ k ∈ ["waves"], k ∈ q.keywords) ∧
        "B.4" ∉ q.topics) ∧
    affectedQuestions demoQs "" ["waves"] = [] := by
  have h := autoTag_rule_characterization demoQs "B.4" ["waves"]
  have h2 := autoTag_rule_characterization demoQs "" ["waves"]
  exact ⟨(h.1 (by decide) (by decide)).1, (h2.2 (Or.inl rfl)).1⟩

theorem applyAutoTag_of_no_updates {qs : List Question} {t : String}
    {ks : List String} (h : autoTagUpdates qs t ks = []) :
    applyAutoTag qs t ks = qs := by
  unfold applyAutoTag
  simp [h]

theorem affected_applyAutoTag_nil (qs : List Question) (t : String)
    (ks : List String) :
    affectedQuestions (applyAutoTag qs t ks) t ks = [] := by
  by_cases hcond : (t == "" || ks.isEmpty) = true
  · simp [affectedQuestions, hcond]
  · unfold affectedQuestions
    rw [if_neg hcond]
    apply List.filter_eq_nil_iff.mpr
    intro r hr
    simp only [applyAutoTag, List.mem_map] at hr
    obtain ⟨q, hq, hgq⟩ := hr
    by_cases hid :
        ((autoTagUpdates qs t ks).map (fun u => u.id)).contains q.id = true
    · have hex : ∃ u ∈ autoTagUpdates qs t ks, (u.id == q.id) = true := by
        have hm := contains_iff_mem.mp hid
        simp only [List.mem_map] at hm
        obtain ⟨u, hu, huid⟩ := hm
        exact ⟨u, hu, by simp [huid]⟩
      cases hfind :
          (autoTagUpdates qs t ks).find? (fun uq => uq.id == q.id) with
      | none =>
          exfalso
          rw [List.find?_eq_none] at hfind
          obtain ⟨u, hu, hbeq⟩ := hex
          exact hfind u hu hbeq
      | some u =>
          have hu : u ∈ autoTagUpdates qs t ks :=
            List.mem_of_find?_eq_some hfind
          rw [if_pos hid, hfind] at hgq
          simp only [Option.getD_some] at hgq
          simp only [autoTagUpdates, List.mem_map] at hu
          obtain ⟨a, _, hua⟩ := hu
          have hru : r = { a with topics := a.topics ++ [t] } := by
            rw [← hgq, ← hua]
          have htop :
              ({ a with topics := a.topics ++ [t] } : Question).topics.contains t
                = true :=
            contains_eq_true_of_mem (by simp)
          simp [hru, htop]
    · rw [if_neg hid] at hgq
      subst hgq
      intro hpred
      apply hid
      have hq_aff : q ∈ affectedQuestions qs t ks := by
        unfold affectedQuestions
        rw [if_neg hcond]
        exact List.mem_filter.mpr ⟨hq, hpred⟩
      have hup : ({ q with topics := q.topics ++ [t] } : Question)
          ∈ autoTagUpdates qs t ks := by
        unfold autoTagUpdates
        exact List.mem_map_of_mem _ hq_aff
      apply contains_eq_true_of_mem
      simp only [List.mem_map]
      exact ⟨_, hup, rfl⟩

/-- C7: the auto-tag rule is idempotent — after applying a rule and
merging the updated records back by id, the same rule matches zero
records, so a second application changes nothing. -/
theorem autoTag_idempotent :
    ∀ (qs : List Question) (t : String) (ks : List String),
      affectedQuestions (applyAutoTag qs t ks) t ks = [] ∧
      applyAutoTag (applyAutoTag qs t ks) t ks = applyAutoTag qs t ks := by
  intro qs t ks
  have h1 := affected_applyAutoTag_nil qs t ks
  refine ⟨h1, applyAutoTag_of_no_updates ?_⟩
  unfold autoTagUpdates
  rw [h1]
  rfl

theorem runPuts_durable (qs : List Question) :
    ∀ (t : Txn) (f : Option Nat), ((runPuts t qs f).1).durable = t.durable := by
  induction qs with
  | nil => intro t f; rfl
  | cons q rest ih =>
      intro t f
      match f with
      | none => exact ih (txnPut t q) none
      | some 0 => rfl
      | some (k + 1) => exact ih (txnPut t q) (some k)

theorem runPuts_abort (qs : List Question) :
    ∀ (t : Txn) (k : Nat),
      (runPuts t qs (some k)).2 = true ↔ k < qs.length := by
  induction qs with
  | nil => intro t k; simp [runPuts]
  | cons q rest ih =>
      intro t k
      match k with
      | 0 => simp [runPuts]
      | k + 1 =>
          show (runPuts (txnPut t q) rest (some k)).2 = true ↔ _
          rw [ih]
          simp only [List.length_cons]
          omega

theorem runPuts_none (qs : List Question) :
    ∀ t : Txn,
      runPuts t qs none =
        ({ durable := t.durable, working := applyPuts t.working qs }, false) := by
  induction qs with
  | nil => intro t; rfl
  | cons q rest ih =>
      intro t
      show runPuts (txnPut t q) rest none = _
      rw [ih]
      rfl

theorem runPuts_big (qs : List Question) :
    ∀ (t : Txn) (k : Nat), qs.length ≤ k →
      runPuts t qs (some k) =
        ({ durable := t.durable, working := applyPuts t.working qs }, false) := by
  induction qs with
  | nil => intro t k _; rfl
  | cons q rest ih =>
      intro t k hk
      match k with
      | 0 => exact absurd hk (by simp)
      | k + 1 =>
          show runPuts (txnPut t q) rest (some k) = _
          rw [ih (txnPut t q) k (by simp only [List.length_cons] at hk; omega)]
          rfl

/-- C4: bulk writes are atomic — a failure on the k-th of N records
rejects with a transaction error and `getAll` afterwards sees exactly the
pre-call store, an unfailing call upserts every record of the list, and
in every case the post-call store is either the untouched pre-call state
or the state with all N records applied. -/
theorem bulk_atomicity :
    ∀ (s : Store) (qs : List Question) (k : Nat) (fa : Option Nat),
      (k < qs.length →
        bulkUpdateQuestions s qs (some k) = (.error .transactionError, s)) ∧
      bulkUpdateQuestions s qs none = (.ok (), applyPuts s qs) ∧
      ((bulkUpdateQuestions s qs fa).2 = s ∨
       (bulkUpdateQuestions s qs fa).2 = applyPuts s qs) := by
  intro s qs k fa
  refine ⟨fun hk => ?_, ?_, ?_⟩
  · have hab := (runPuts_abort qs ⟨s, s⟩ k).mpr hk
    have hd := runPuts_durable qs ⟨s, s⟩ (some k)
    simp [bulkUpdateQuestions, hab, hd]
  · rw [bulkUpdateQuestions, runPuts_none qs ⟨s, s⟩]
    simp
  · match fa with
    | none =>
        right
        rw [bulkUpdateQuestions, runPuts_none qs ⟨s, s⟩]
        simp
    | some j =>
        by_cases hj : j < qs.length
        · left
          have hab := (runPuts_abort qs ⟨s, s⟩ j).mpr hj
          have hd := runPuts_durable qs ⟨s, s⟩ (some j)
          simp [bulkUpdateQuestions, hab, hd]
        · right
          rw [bulkUpdateQuestions, runPuts_big qs ⟨s, s⟩ j (by omega)]
          simp

/-- Witness for bulk atomicity: on the empty store, a bulk write of one
record failing at index 0 rejects and leaves the store empty, while the
unfailing write applies the record. -/
theorem bulk_atomicity_witness :
    bulkUpdateQuestions [] [mkQ "a" [] []] (some 0)
      = (.error .transactionError, []) ∧
    bulkUpdateQuestions [] [mkQ "a" [] []] none
      = (.ok (), applyPuts [] [mkQ "a" [] []]) := by
  have h := bulk_atomicity [] [mkQ "a" [] []] 0 none
  exact ⟨h.1 (by decide), h.2.1⟩

theorem putRecord_le_id (r q : Question) :
    (if r.id == q.id then q else r).id = r.id := by
  by_cases h : (r.id == q.id) = true
  · rw [if_pos h]
    exact (beq_iff_eq.mp h).symm
  · rw [if_neg h]

theorem putRecord_map_id {s : Store} {q : Question}
    (h : s.any (fun r => r.id == q.id) = true) :
    (putRecord s q).map Question.id = s.map Question.id := by
  unfold putRecord
  rw [if_pos h, List.map_map]
  exact List.map_eq_map_iff.mpr fun r _ => putRecord_le_id r q

/-- C8: `put` is an upsert keyed by the record identifier — the written
record is present afterwards, any stored record carrying that id is the
written record in full, writing an already-present id keeps the stored id
sequence unchanged (no duplicate entry), id-uniqueness is preserved, and
saving the same record twice equals saving it once. -/
theorem put_upsert :
    ∀ (s : Store) (q : Question),
      putRecord (putRecord s q) q = putRecord s q ∧
      q ∈ putRecord s q ∧
      (∀ r ∈ putRecord s q, r.id = q.id → r = q) ∧
      (q.id ∈ s.map Question.id →
        (putRecord s q).map Question.id = s.map Question.id) ∧
      ((s.map Question.id).Nodup → ((putRecord s q).map Question.id).Nodup) := by
  intro s q
  by_cases hany : s.any (fun r => r.id == q.id) = true
  · have hrep : putRecord s q = s.map (fun r => if r.id == q.id then q else r) := by
      unfold putRecord
      rw [if_pos hany]
    obtain ⟨r0, hr0, hr0id⟩ := List.any_eq_true.mp hany
    have hqmem : q ∈ putRecord s q := by
      rw [hrep]
      exact List.mem_map.mpr ⟨r0, hr0, by rw [if_pos hr0id]⟩
    refine ⟨?_, hqmem, ?_, fun _ => putRecord_map_id hany, ?_⟩
    · have hany2 : (putRecord s q).any (fun r => r.id == q.id) = true :=
        List.any_eq_true.mpr ⟨q, hqmem, by simp⟩
      unfold putRecord
      rw [if_pos hany, if_pos (by rw [← hrep]; exact hany2), List.map_map]
      apply List.map_eq_map_iff.mpr
      intro r _
      by_cases h : (r.id == q.id) = true
      · simp only [Function.comp_apply, if_pos h]
        rw [if_pos (by simp)]
      · simp only [Function.comp_apply, if_neg h, if_neg h]
    · intro r hr hrid
      rw [hrep] at hr
      obtain ⟨a, _, ha⟩ := List.mem_map.mp hr
      by_cases h : (a.id == q.id) = true
      · rw [if_pos h] at ha
        exact ha.symm
      · rw [if_neg h] at ha
        exact absurd (beq_iff_eq.mpr (ha ▸ hrid)) h
    · intro hnd
      rw [putRecord_map_id hany]
      exact hnd
  · have happ : putRecord s q = s ++ [q] := by
      unfold putRecord
      rw [if_neg hany]
    have hnot : ∀ r ∈ s, ¬(r.id == q.id) = true := by
      intro r hr
      exact fun hc => hany (List.any_eq_true.mpr ⟨r, hr, hc⟩)
    have hnid : q.id ∉ s.map Question.id := by
      intro hm
      obtain ⟨r, hr, hrid⟩ := List.mem_map.mp hm
      exact hnot r hr (beq_iff_eq.mpr hrid)
    refine ⟨?_, ?_, ?_, fun hm => absurd hm hnid, ?_⟩
    · have hany2 : (s ++ [q]).any (fun r => r.id == q.id) = true :=
        List.any_eq_true.mpr ⟨q, by simp, by simp⟩
      rw [happ]
      unfold putRecord
      rw [if_pos hany2, List.map_append]
      have h1 : s.map (fun r => if r.id == q.id then q else r) = s := by
        conv_rhs => rw [← List.map_id s]
        apply List.map_eq_map_iff.mpr
        intro r hr
        rw [if_neg (hnot r hr)]
        rfl
      have h2 : [q].map (fun r => if r.id == q.id then q else r) = [q] := by
        simp
      rw [h1, h2]
    · rw [happ]
      simp
    · intro r hr hrid
      rw [happ] at hr
      rcases List.mem_append.mp hr with h | h
      · exact absurd (beq_iff_eq.mpr hrid) (hnot r h)
      · simpa using h
    · intro hnd
      rw [happ, List.map_append]
      simp only [List.map_cons, List.map_nil]
      simp only [List.nodup_append, hnd, true_and, List.nodup_cons,
        List.not_mem_nil, not_false_eq_true, List.nodup_nil, and_true]
      intro a ha hb
      rw [List.mem_singleton] at hb
      exact hnid (hb ▸ ha)

/-- Witness for the upsert property on the empty store. -/
theorem put_upsert_witness :
    putRecord (putRecord [] (mkQ "a" [] [])) (mkQ "a" [] [])
      = putRecord [] (mkQ "a" [] []) ∧
    mkQ "a" [] [] ∈ putRecord [] (mkQ "a" [] []) ∧
    ((putRecord [] (mkQ "a" [] [])).map Question.id).Nodup := by
  have h := put_upsert [] (mkQ "a" [] [])
  exact ⟨h.1, h.2.1, h.2.2.2.2 (by decide)⟩

/-- C9: each storage-engine failure surfaces to the caller as the
taxonomy's distinct typed error for that operation — initialization when
the store cannot be opened, read for a failed fetch, write for a failed
single upsert, transaction for an aborted bulk write — and a failing
engine never yields a success. -/
theorem error_taxonomy :
    ∀ (s : Store) (q : Question) (qs : List Question)
      (fault : EngineFault) (k : Nat),
      (fault.openFails = true →
        initDB fault = .error .initializationError ∧
        getAllQuestions s fault = .error .initializationError ∧
        (addQuestionToDB s q fault).1 = .error .initializationError ∧
        (bulkUpdateQuestionsFull s qs fault (some k)).1
          = .error .initializationError) ∧
      (fault.openFails = false → fault.opFails = true →
        getAllQuestions s fault = .error .readError ∧
        (addQuestionToDB s q fault).1 = .error .writeError) ∧
      (fault.openFails = false → k < qs.length →
        (bulkUpdateQuestionsFull s qs fault (some k)).1
          = .error .transactionError) ∧
      ((fault.openFails = true ∨ fault.opFails = true) →
        ∀ res, getAllQuestions s fault ≠ .ok res) := by
  intro s q qs fault k
  refine ⟨fun ho => ?_, fun ho hop => ?_, fun ho hk => ?_, fun h res => ?_⟩
  · simp [initDB, getAllQuestions, addQuestionToDB,
      bulkUpdateQuestionsFull, ho]
  · simp [initDB, getAllQuestions, addQuestionToDB, ho, hop]
  · have hab := (runPuts_abort qs ⟨s, s⟩ k).mpr hk
    simp [bulkUpdateQuestionsFull, initDB, ho, bulkUpdateQuestions, hab]
  · rcases h with h | h
    · simp [getAllQuestions, initDB, h]
    · by_cases ho : fault.openFails = true <;>
        simp [getAllQuestions, initDB, h, ho]

/-- Witness for the error taxonomy at concrete faults. -/
theorem error_taxonomy_witness :
    getAllQuestions [] ⟨true, false⟩ = .error .initializationError ∧
    getAllQuestions [] ⟨false, true⟩ = .error .readError ∧
    (addQuestionToDB [] (mkQ "a" [] []) ⟨false, true⟩).1
      = .error .writeError ∧
    (bulkUpdateQuestionsFull [] [mkQ "a" [] []] ⟨false, false⟩ (some 0)).1
      = .error .transactionError := by
  have h1 := error_taxonomy [] (mkQ "a" [] []) [mkQ "a" [] []]
    ⟨true, false⟩ 0
  have h2 := error_taxonomy [] (mkQ "a" [] []) [mkQ "a" [] []]
    ⟨false, true⟩ 0
  have h3 := error_taxonomy [] (mkQ "a" [] []) [mkQ "a" [] []]
    ⟨false, false⟩ 0
  exact ⟨(h1.1 rfl).2.1, (h2.2.1 rfl rfl).1, (h2.2.1 rfl rfl).2,
    h3.2.2.1 rfl (by decide)⟩

end IBPP
